import Mathlib

/-!
# Verification of the `syncal` synchronization core

Shallow embedding of the Go sources of `saviobatista/syncal`, centred on
`internal/syncer/syncer.go` (the orchestrator), together with the pieces of
`internal/icloud/caldav.go` and `internal/models` that the orchestrator
depends on.

External collaborators (the Google Calendar API, the CalDAV server, the
file system, the random source behind UUID generation) are modelled as an
explicit environment `Env` of oracles; the orchestrator's own control flow
is translated line by line from the source.
-/

set_option autoImplicit false

namespace Syncal

/-- Model of Go `time.Time`: an absolute instant together with the location
(timezone) in which the time is presented.  Go's `Time.In(loc)` changes only
the presentation location, never the instant. -/
structure GoTime where
  instant : Int
  loc : String
  deriving Repr, DecidableEq

/-- Go `time.Time.In`: re-express the same instant in another location. -/
def GoTime.In (t : GoTime) (tz : String) : GoTime :=
  { instant := t.instant, loc := tz }

/-- `internal/models` `Event`: the provider-agnostic calendar event record. -/
structure Event where
  ID : String
  Title : String
  Description : String
  StartTime : GoTime
  EndTime : GoTime
  Location : String
  Organizer : String
  Attendees : List String
  Source : String
  UID : String
  deriving Repr, DecidableEq

/-- `syncer.SyncState`: Go `map[string]string` from Google event ID to the
iCloud UID, represented as an association list (later writes shadow earlier
entries, so lookups agree with Go map semantics). -/
abbrev SyncState := List (String × String)

/-- Lookup in the sync state, Go `s.state[key]`. -/
def SyncState.find : SyncState → String → Option String
  | [], _ => none
  | (k, v) :: rest, key => if key = k then some v else SyncState.find rest key

/-- Go map assignment `s.state[k] = v`: the new entry shadows any older one. -/
def SyncState.set (st : SyncState) (k v : String) : SyncState :=
  (k, v) :: st

/-- Hex digit for a nibble, as produced by the `uuid` library's encoder. -/
def hexChar (n : Nat) : Char :=
  if n < 10 then Char.ofNat (48 + n) else Char.ofNat (87 + n % 16)

/-- Two-character lowercase hex encoding of one byte. -/
def byteToHex (b : Nat) : String :=
  String.mk [hexChar (b / 16 % 16), hexChar (b % 16)]

/-- Hex encoding of a byte sequence. -/
def bytesToHex (bs : List Nat) : String :=
  bs.foldl (fun acc b => acc ++ byteToHex b) ""

/-- `icloud.GenerateUID`, which returns `uuid.New().String()`: 16 random
bytes formatted as the canonical hyphenated `8-4-4-4-12` hex groups.  The
random source is the explicit `bytes` argument; the RFC 4122 version/variant
bit fixing done by `uuid.New` only alters two nibbles and is not observable
by any claim, so it is not reproduced. -/
def GenerateUID (bytes : List Nat) : String :=
  bytesToHex (bytes.take 4) ++ "-" ++
  bytesToHex ((bytes.drop 4).take 2) ++ "-" ++
  bytesToHex ((bytes.drop 6).take 2) ++ "-" ++
  bytesToHex ((bytes.drop 8).take 2) ++ "-" ++
  bytesToHex (bytes.drop 10)

/-- The external world the orchestrator interacts with:
* `fetch ci cal` — outcome of `client.GetUpcomingEvents(cal, 7)` for google
  client number `ci`;
* `createOk e` — whether `icloudClient.SyncEvent(ctx, e)` succeeds;
* `uidBytes n` — the random bytes behind the `n`-th call to `GenerateUID`;
* `saveOk` — whether `os.WriteFile` in `saveState` succeeds. -/
structure Env where
  fetch : Nat → String → Except String (List Event)
  createOk : Event → Bool
  uidBytes : Nat → List Nat
  saveOk : Bool

/-- `syncer.Syncer`: the orchestrator's own fields.  The logger and the two
protocol clients carry no orchestration state; google clients are kept as a
list of indices into `Env.fetch`. -/
structure Syncer where
  googleClients : List Nat
  googleCalIDs : List String
  state : SyncState
  dryRun : Bool
  primaryTimeZone : String
  deriving Repr, DecidableEq

/-- Result of one `syncEvent` call: the updated state, the (possibly
mutated) event, the list of destination create invocations made (empty or a
singleton), the next fresh-UID index, and the returned error. -/
structure EvResult where
  state : SyncState
  ev : Event
  creates : List Event
  uidNext : Nat
  err : Option String
  deriving Repr, DecidableEq

/-- The in-place mutation `syncEvent` performs on a not-yet-synced event
before deciding on a write: assign a generated UID when the event has none
(the `n`-th fresh UID), then re-express start/end in the primary timezone. -/
def normalizeEvent (env : Env) (tz : String) (n : Nat) (event : Event) :
    Event :=
  let event1 := if event.UID = "" then
      { event with UID := GenerateUID (env.uidBytes n) } else event
  { event1 with StartTime := event1.StartTime.In tz,
                EndTime := event1.EndTime.In tz }

/-- Number of fresh UIDs consumed by `syncEvent`'s UID assignment. -/
def uidStep (n : Nat) (event : Event) : Nat :=
  if event.UID = "" then n + 1 else n

/-- `syncer.syncEvent`, translated clause by clause:
1. if the event ID is already a key of the state, skip (no mutation);
2. if the UID is empty, assign a freshly generated one;
3. re-express start/end times in the primary timezone (2 and 3 are
   `normalizeEvent`);
4. if dry-run, stop before any write;
5. otherwise invoke the destination create; on success record the mapping,
   on failure return the wrapped error leaving the state untouched. -/
def syncEvent (env : Env) (dryRun : Bool) (tz : String) (st : SyncState)
    (n : Nat) (event : Event) : EvResult :=
  if (st.find event.ID).isSome then
    ⟨st, event, [], n, none⟩
  else
    let event2 := normalizeEvent env tz n event
    if dryRun then
      ⟨st, event2, [], uidStep n event, none⟩
    else if env.createOk event2 then
      ⟨st.set event2.ID event2.UID, event2, [event2], uidStep n event, none⟩
    else
      ⟨st, event2, [event2], uidStep n event,
        some "failed to sync event to icloud"⟩

/-- Accumulated outcome of the event loop inside `Sync`. -/
structure RunAcc where
  state : SyncState
  uidNext : Nat
  creates : List Event
  deriving Repr, DecidableEq

/-- The `for _, event := range googleEvents` loop of `Sync`: each event is
passed to `syncEvent`; a per-event error is only logged, the loop always
continues with the next event. -/
def runEvents (env : Env) (dryRun : Bool) (tz : String) :
    SyncState → Nat → List Event → RunAcc
  | st, n, [] => ⟨st, n, []⟩
  | st, n, e :: rest =>
    let r := syncEvent env dryRun tz st n e
    let acc := runEvents env dryRun tz r.state r.uidNext rest
    ⟨acc.state, acc.uidNext, r.creates ++ acc.creates⟩

/-- Outcome of one full `Sync` cycle: final in-memory state, content of the
persisted state file (`none` = file absent), destination create invocations
in order, number of `saveState` calls, and the error returned by `Sync`. -/
structure CycleResult where
  state : SyncState
  file : Option SyncState
  creates : List Event
  saves : Nat
  err : Option String
  deriving Repr, DecidableEq

/-- The body of `Sync` after the fetch: run every event through `syncEvent`,
then, unless dry-run, call `saveState` (its failure is only logged, the file
then keeps its previous content).  `Sync` returns `nil` at the end. -/
def runCycle (env : Env) (s : Syncer) (events : List Event)
    (file : Option SyncState) : CycleResult :=
  let acc := runEvents env s.dryRun s.primaryTimeZone s.state 0 events
  if s.dryRun then
    ⟨acc.state, file, acc.creates, 0, none⟩
  else
    ⟨acc.state, if env.saveOk then some acc.state else file,
      acc.creates, 1, none⟩

/-- Character-level worker for `splitComma`. -/
def splitCommaChars : List Char → List (List Char)
  | [] => [[]]
  | c :: rest =>
    if c = ',' then [] :: splitCommaChars rest
    else
      match splitCommaChars rest with
      | [] => [[c]]
      | h :: t => (c :: h) :: t

/-- Go `strings.Split(s, ",")`: cut the string at every comma; the empty
string yields `[""]`, like the Go function with a non-empty separator. -/
def splitComma (s : String) : List String :=
  (splitCommaChars s.data).map String.mk

/-- `syncer.fetchAllGoogleEvents`: splits `s.googleCalIDs[0]` on commas and
folds over all clients and calendar IDs, skipping (after logging) any pair
whose fetch errors.  The unguarded index `s.googleCalIDs[0]` panics when the
list is empty; the panic is the `none` branch. -/
def fetchAllGoogleEvents (env : Env) (s : Syncer) : Option (List Event) :=
  match s.googleCalIDs.head? with
  | none => none
  | some first =>
    let calendarIDs := splitComma first
    some (s.googleClients.foldl (fun acc ci =>
      calendarIDs.foldl (fun acc2 calID =>
        match env.fetch ci calID with
        | .error _ => acc2
        | .ok evs => acc2 ++ evs) acc) [])

/-- `syncer.Sync`: fetch everything (propagating the panic as `none`), then
run the cycle body.  `fetchAllGoogleEvents` never returns a non-nil error,
so the fetch-error return of `Sync` is unreachable and the returned error is
always `nil`. -/
def Sync (env : Env) (s : Syncer) (file : Option SyncState) :
    Option CycleResult :=
  match fetchAllGoogleEvents env s with
  | none => none
  | some evs => some (runCycle env s evs file)

/-- Outcome of `os.ReadFile(stateFile)`: the file may be missing, unreadable
for another reason, or readable with some content. -/
inductive FileRead where
  | missing
  | unreadable (msg : String)
  | content (data : String)
  deriving Repr, DecidableEq

/-- Classified error of `loadState`; `os.IsNotExist` is true exactly for
`notExist`. -/
inductive LoadErr where
  | notExist
  | readFail (msg : String)
  | parseFail
  deriving Repr, DecidableEq

/-- `syncer.loadState`: read the state file, then `json.Unmarshal` it into
the mapping; either step's error is returned as-is.  JSON parsing is the
oracle `parse` (`none` = unmarshal error). -/
def loadState (fr : FileRead) (parse : String → Option SyncState) :
    Except LoadErr SyncState :=
  match fr with
  | .missing => .error .notExist
  | .unreadable msg => .error (.readFail msg)
  | .content d =>
    match parse d with
    | none => .error .parseFail
    | some st => .ok st

/-- `syncer.NewSyncer`: load the persisted state; a missing file starts an
empty state, any other load failure is returned as a construction error. -/
def NewSyncer (fr : FileRead) (parse : String → Option SyncState)
    (gClients : List Nat) (gCalIDs : List String) (dryRun : Bool)
    (tz : String) : Except LoadErr Syncer :=
  match loadState fr parse with
  | .ok st => .ok ⟨gClients, gCalIDs, st, dryRun, tz⟩
  | .error .notExist => .ok ⟨gClients, gCalIDs, [], dryRun, tz⟩
  | .error e => .error e

/-- Contribution of one (client, calendar) pair to the collected event
list: its events when the fetch succeeds, nothing when it errors. -/
def fetchOrEmpty (env : Env) (ci : Nat) (cal : String) : List Event :=
  match env.fetch ci cal with
  | .error _ => []
  | .ok evs => evs

/-! ## Concrete fixtures for closed-form evaluations -/

/-- A concrete already-identified event (source id `g3`, UID `uid-c`). -/
def evC : Event :=
  ⟨"g3", "C", "", ⟨0, "UTC"⟩, ⟨3600, "UTC"⟩, "", "", [], "google-primary",
    "uid-c"⟩

/-- A concrete event that arrives without a UID (source id `g1`). -/
def evA : Event :=
  ⟨"g1", "A", "", ⟨7200, "UTC"⟩, ⟨10800, "UTC"⟩, "", "", [],
    "google-primary", ""⟩

/-- Environment where every external operation succeeds. -/
def envOk : Env :=
  ⟨fun _ _ => .ok [evC], fun _ => true, fun _ => [1, 2], true⟩

/-- Environment where every destination create fails but saving works. -/
def envCreateFail : Env :=
  ⟨fun _ _ => .ok [evC], fun _ => false, fun _ => [1, 2], true⟩

/-- Environment where every external operation fails. -/
def envAllFail : Env :=
  ⟨fun _ _ => .error "network", fun _ => false, fun _ => [], false⟩

/-- Environment where calendar `primary` fetches one event and any other
calendar fails to fetch. -/
def envPartial : Env :=
  ⟨fun _ cal => if cal = "primary" then .ok [evC] else .error "network",
    fun _ => true, fun _ => [1, 2], true⟩

/-- A concrete syncer: one google client, one configured calendar. -/
def sTest : Syncer := ⟨[0], ["primary"], [], false, "UTC"⟩

/-- `sTest` in dry-run mode, with one entry already in its state. -/
def sTestDry : Syncer := ⟨[0], ["primary"], [("g0", "uid-0")], true, "UTC"⟩

/-- A syncer whose single configured entry names two comma-separated
calendars. -/
def sTwo : Syncer := ⟨[0], ["primary,broken"], [], false, "UTC"⟩

/-! ## Basic lemmas about the state map and UID generation -/

theorem SyncState.find_set (st : SyncState) (k v key : String) :
    (st.set k v).find key = if key = k then some v else st.find key := by
  simp [SyncState.set, SyncState.find]

theorem GenerateUID_ne_empty (bs : List Nat) : GenerateUID bs ≠ "" := by
  intro h
  have hl := congrArg String.length h
  simp only [GenerateUID, String.length_append] at hl
  have h1 : ("-" : String).length = 1 := rfl
  have h0 : ("" : String).length = 0 := rfl
  rw [h1, h0] at hl
  omega

/-! ## Field lemmas for `normalizeEvent` -/

theorem normalizeEvent_ID (env : Env) (tz : String) (n : Nat) (ev : Event) :
    (normalizeEvent env tz n ev).ID = ev.ID := by
  unfold normalizeEvent
  split <;> rfl

theorem normalizeEvent_frame (env : Env) (tz : String) (n : Nat)
    (ev : Event) :
    (normalizeEvent env tz n ev).ID = ev.ID ∧
    (normalizeEvent env tz n ev).Title = ev.Title ∧
    (normalizeEvent env tz n ev).Description = ev.Description ∧
    (normalizeEvent env tz n ev).Location = ev.Location ∧
    (normalizeEvent env tz n ev).Organizer = ev.Organizer ∧
    (normalizeEvent env tz n ev).Attendees = ev.Attendees ∧
    (normalizeEvent env tz n ev).Source = ev.Source := by
  unfold normalizeEvent
  split <;> exact ⟨rfl, rfl, rfl, rfl, rfl, rfl, rfl⟩

theorem normalizeEvent_instants (env : Env) (tz : String) (n : Nat)
    (ev : Event) :
    (normalizeEvent env tz n ev).StartTime.instant = ev.StartTime.instant ∧
    (normalizeEvent env tz n ev).EndTime.instant = ev.EndTime.instant := by
  unfold normalizeEvent
  split <;> exact ⟨rfl, rfl⟩

theorem normalizeEvent_UID_empty (env : Env) (tz : String) (n : Nat)
    (ev : Event) (h : ev.UID = "") :
    (normalizeEvent env tz n ev).UID = GenerateUID (env.uidBytes n) := by
  simp [normalizeEvent, h]

theorem normalizeEvent_UID_kept (env : Env) (tz : String) (n : Nat)
    (ev : Event) (h : ev.UID ≠ "") :
    (normalizeEvent env tz n ev).UID = ev.UID := by
  simp [normalizeEvent, h]

theorem normalizeEvent_UID_ne_empty (env : Env) (tz : String) (n : Nat)
    (ev : Event) : (normalizeEvent env tz n ev).UID ≠ "" := by
  by_cases h : ev.UID = ""
  · rw [normalizeEvent_UID_empty env tz n ev h]
    exact GenerateUID_ne_empty _
  · rw [normalizeEvent_UID_kept env tz n ev h]
    exact h

/-! ## Branch equations for `syncEvent` -/

theorem syncEvent_skip (env : Env) (dryRun : Bool) (tz : String)
    (st : SyncState) (n : Nat) (ev : Event)
    (h : (st.find ev.ID).isSome) :
    syncEvent env dryRun tz st n ev = ⟨st, ev, [], n, none⟩ := by
  simp [syncEvent, h]

theorem syncEvent_new_dry (env : Env) (tz : String) (st : SyncState)
    (n : Nat) (ev : Event) (h : (st.find ev.ID).isSome = false) :
    syncEvent env true tz st n ev =
      ⟨st, normalizeEvent env tz n ev, [], uidStep n ev, none⟩ := by
  simp [syncEvent, h]

theorem syncEvent_new_created (env : Env) (tz : String) (st : SyncState)
    (n : Nat) (ev : Event) (h : (st.find ev.ID).isSome = false)
    (hc : env.createOk (normalizeEvent env tz n ev) = true) :
    syncEvent env false tz st n ev =
      ⟨st.set (normalizeEvent env tz n ev).ID (normalizeEvent env tz n ev).UID,
        normalizeEvent env tz n ev, [normalizeEvent env tz n ev],
        uidStep n ev, none⟩ := by
  simp [syncEvent, h, hc]

theorem syncEvent_new_failed (env : Env) (tz : String) (st : SyncState)
    (n : Nat) (ev : Event) (h : (st.find ev.ID).isSome = false)
    (hc : env.createOk (normalizeEvent env tz n ev) = false) :
    syncEvent env false tz st n ev =
      ⟨st, normalizeEvent env tz n ev, [normalizeEvent env tz n ev],
        uidStep n ev, some "failed to sync event to icloud"⟩ := by
  simp [syncEvent, h, hc]

theorem syncEvent_state_monotone (env : Env) (dryRun : Bool) (tz : String)
    (st : SyncState) (n : Nat) (ev : Event) (k : String)
    (h : (st.find k).isSome) :
    (((syncEvent env dryRun tz st n ev).state).find k).isSome := by
  by_cases hseen : (st.find ev.ID).isSome
  · rw [syncEvent_skip env dryRun tz st n ev hseen]
    exact h
  · cases dryRun with
    | true =>
      rw [syncEvent_new_dry env tz st n ev (by simpa using hseen)]
      exact h
    | false =>
      by_cases hc : env.createOk (normalizeEvent env tz n ev) = true
      · rw [syncEvent_new_created env tz st n ev (by simpa using hseen) hc]
        simp only [SyncState.find_set]
        split <;> simp [h]
      · rw [syncEvent_new_failed env tz st n ev (by simpa using hseen)
          (by simpa using hc)]
        exact h

theorem syncEvent_dryRun_frame (env : Env) (tz : String) (st : SyncState)
    (n : Nat) (ev : Event) :
    (syncEvent env true tz st n ev).state = st ∧
    (syncEvent env true tz st n ev).creates = [] := by
  by_cases hseen : (st.find ev.ID).isSome
  · rw [syncEvent_skip env true tz st n ev hseen]
    exact ⟨rfl, rfl⟩
  · rw [syncEvent_new_dry env tz st n ev (by simpa using hseen)]
    exact ⟨rfl, rfl⟩

theorem syncEvent_creates_unseen (env : Env) (dryRun : Bool) (tz : String)
    (st : SyncState) (n : Nat) (ev : Event) (e : Event)
    (h : e ∈ (syncEvent env dryRun tz st n ev).creates) :
    st.find e.ID = none := by
  by_cases hseen : (st.find ev.ID).isSome
  · rw [syncEvent_skip env dryRun tz st n ev hseen] at h
    simp at h
  · cases dryRun with
    | true =>
      rw [syncEvent_new_dry env tz st n ev (by simpa using hseen)] at h
      simp at h
    | false =>
      have hid : st.find ev.ID = none := by
        cases hfind : st.find ev.ID with
        | none => rfl
        | some v => rw [hfind] at hseen; simp at hseen
      by_cases hc : env.createOk (normalizeEvent env tz n ev) = true
      · rw [syncEvent_new_created env tz st n ev (by simpa using hseen) hc]
          at h
        simp at h
        rw [h, normalizeEvent_ID]
        exact hid
      · rw [syncEvent_new_failed env tz st n ev (by simpa using hseen)
          (by simpa using hc)] at h
        simp at h
        rw [h, normalizeEvent_ID]
        exact hid

/-! ## Lemmas about the event loop -/

theorem runEvents_nil (env : Env) (dryRun : Bool) (tz : String)
    (st : SyncState) (n : Nat) :
    runEvents env dryRun tz st n [] = ⟨st, n, []⟩ := rfl

theorem runEvents_cons (env : Env) (dryRun : Bool) (tz : String)
    (st : SyncState) (n : Nat) (e : Event) (rest : List Event) :
    runEvents env dryRun tz st n (e :: rest) =
      ⟨(runEvents env dryRun tz (syncEvent env dryRun tz st n e).state
          (syncEvent env dryRun tz st n e).uidNext rest).state,
        (runEvents env dryRun tz (syncEvent env dryRun tz st n e).state
          (syncEvent env dryRun tz st n e).uidNext rest).uidNext,
        (syncEvent env dryRun tz st n e).creates ++
          (runEvents env dryRun tz (syncEvent env dryRun tz st n e).state
            (syncEvent env dryRun tz st n e).uidNext rest).creates⟩ := rfl

theorem runEvents_dryRun_frame (env : Env) (tz : String) :
    ∀ (l : List Event) (st : SyncState) (n : Nat),
    (runEvents env true tz st n l).state = st ∧
    (runEvents env true tz st n l).creates = []
  | [], st, n => ⟨rfl, rfl⟩
  | e :: rest, st, n => by
    rw [runEvents_cons]
    have hf := syncEvent_dryRun_frame env tz st n e
    have ih := runEvents_dryRun_frame env tz rest
      (syncEvent env true tz st n e).state
      (syncEvent env true tz st n e).uidNext
    refine ⟨?_, ?_⟩
    · rw [ih.1, hf.1]
    · rw [ih.2, hf.2]
      rfl

theorem runEvents_state_monotone (env : Env) (dryRun : Bool) (tz : String)
    (k : String) :
    ∀ (l : List Event) (st : SyncState) (n : Nat),
    (st.find k).isSome →
    (((runEvents env dryRun tz st n l).state).find k).isSome
  | [], _, _, h => h
  | e :: rest, st, n, h => by
    rw [runEvents_cons]
    exact runEvents_state_monotone env dryRun tz k rest _ _
      (syncEvent_state_monotone env dryRun tz st n e k h)

theorem runEvents_creates_unseen (env : Env) (dryRun : Bool) (tz : String)
    (e : Event) :
    ∀ (l : List Event) (st : SyncState) (n : Nat),
    e ∈ (runEvents env dryRun tz st n l).creates →
    st.find e.ID = none
  | [], _, _, h => by simp [runEvents_nil] at h
  | ev :: rest, st, n, h => by
    rw [runEvents_cons] at h
    simp only [List.mem_append] at h
    cases h with
    | inl h => exact syncEvent_creates_unseen env dryRun tz st n ev e h
    | inr h =>
      have ih := runEvents_creates_unseen env dryRun tz e rest _ _ h
      cases hfind : st.find e.ID with
      | none => rfl
      | some v =>
        have := runEvents_state_monotone env dryRun tz e.ID rest
          (syncEvent env dryRun tz st n ev).state
          (syncEvent env dryRun tz st n ev).uidNext
        exact absurd ih (by
          have hs := syncEvent_state_monotone env dryRun tz st n ev e.ID
            (by rw [hfind]; rfl)
          cases h2 : ((syncEvent env dryRun tz st n ev).state).find e.ID with
          | none => rw [h2] at hs; simp at hs
          | some w => simp [h2])

theorem runEvents_skip_all (env : Env) (dryRun : Bool) (tz : String) :
    ∀ (l : List Event) (st : SyncState) (n : Nat),
    (∀ e ∈ l, (st.find e.ID).isSome) →
    runEvents env dryRun tz st n l = ⟨st, n, []⟩
  | [], st, n, _ => rfl
  | e :: rest, st, n, h => by
    rw [runEvents_cons, syncEvent_skip env dryRun tz st n e
      (h e (List.mem_cons_self e rest))]
    rw [runEvents_skip_all env dryRun tz rest st n
      (fun x hx => h x (List.mem_cons_of_mem e hx))]
    simp

theorem runEvents_covers (env : Env) (tz : String) :
    ∀ (l : List Event) (st : SyncState) (n : Nat),
    (∀ e' ∈ (runEvents env false tz st n l).creates,
      env.createOk e' = true) →
    ∀ e ∈ l, (((runEvents env false tz st n l).state).find e.ID).isSome
  | [], _, _, _, e, he => by simp at he
  | ev :: rest, st, n, hok, e, he => by
    rw [runEvents_cons] at hok ⊢
    simp only [List.mem_append] at hok
    by_cases hseen : (st.find ev.ID).isSome
    · rw [syncEvent_skip env false tz st n ev hseen] at hok ⊢
      rcases List.mem_cons.mp he with rfl | he'
      · exact runEvents_state_monotone env false tz e.ID rest st n hseen
      · exact runEvents_covers env tz rest st n
          (fun x hx => hok x (Or.inr hx)) e he'
    · by_cases hc : env.createOk (normalizeEvent env tz n ev) = true
      · rw [syncEvent_new_created env tz st n ev (by simpa using hseen) hc]
          at hok ⊢
        rcases List.mem_cons.mp he with rfl | he'
        · apply runEvents_state_monotone
          rw [SyncState.find_set, normalizeEvent_ID]
          simp
        · exact runEvents_covers env tz rest _ _
            (fun x hx => hok x (Or.inr hx)) e he'
      · exfalso
        rw [syncEvent_new_failed env tz st n ev (by simpa using hseen)
          (by simpa using hc)] at hok
        have := hok (normalizeEvent env tz n ev)
          (Or.inl (List.mem_singleton_self _))
        exact hc this

theorem runEvents_creates_new (env : Env) (tz : String) (e : Event) :
    ∀ (l : List Event) (st : SyncState) (n : Nat),
    e ∈ l → st.find e.ID = none →
    (∀ e' ∈ l, e' ≠ e → e'.ID ≠ e.ID) →
    ∃ e'' ∈ (runEvents env false tz st n l).creates, e''.ID = e.ID
  | [], _, _, he, _, _ => absurd he (List.not_mem_nil e)
  | a :: rest, st, n, he, hnone, huniq => by
    by_cases hea : e = a
    · subst hea
      rw [runEvents_cons]
      have hseen : (st.find e.ID).isSome = false := by rw [hnone]; rfl
      by_cases hc : env.createOk (normalizeEvent env tz n e) = true
      · rw [syncEvent_new_created env tz st n e hseen hc]
        exact ⟨normalizeEvent env tz n e, by simp,
          normalizeEvent_ID env tz n e⟩
      · rw [syncEvent_new_failed env tz st n e hseen (by simpa using hc)]
        exact ⟨normalizeEvent env tz n e, by simp,
          normalizeEvent_ID env tz n e⟩
    · have herest : e ∈ rest := by
        rcases List.mem_cons.mp he with h | h
        · exact absurd h hea
        · exact h
      have haID : a.ID ≠ e.ID :=
        huniq a (List.mem_cons_self a rest) (fun hh => hea hh.symm)
      have hnone' : ((syncEvent env false tz st n a).state).find e.ID
          = none := by
        by_cases hseen : (st.find a.ID).isSome
        · rw [syncEvent_skip env false tz st n a hseen]
          exact hnone
        · by_cases hc : env.createOk (normalizeEvent env tz n a) = true
          · rw [syncEvent_new_created env tz st n a (by simpa using hseen)
              hc]
            rw [SyncState.find_set, normalizeEvent_ID]
            rw [if_neg (fun hh => haID hh.symm)]
            exact hnone
          · rw [syncEvent_new_failed env tz st n a (by simpa using hseen)
              (by simpa using hc)]
            exact hnone
      rw [runEvents_cons]
      obtain ⟨e'', h1, h2⟩ := runEvents_creates_new env tz e rest
        (syncEvent env false tz st n a).state
        (syncEvent env false tz st n a).uidNext herest hnone'
        (fun x hx hne => huniq x (List.mem_cons_of_mem a hx) hne)
      exact ⟨e'', List.mem_append.mpr (Or.inr h1), h2⟩

/-! ## Lemmas about fetching and the cycle wrapper -/

theorem foldl_append_join {α β : Type} (f : α → List β) :
    ∀ (l : List α) (init : List β),
    l.foldl (fun acc x => acc ++ f x) init = init ++ (l.map f).flatten
  | [], init => by simp
  | x :: rest, init => by
    simp only [List.foldl_cons, List.map_cons, List.flatten]
    rw [foldl_append_join f rest (init ++ f x), List.append_assoc]

theorem fetchAll_eq (env : Env) (s : Syncer) (first : String)
    (rest : List String) (h : s.googleCalIDs = first :: rest) :
    fetchAllGoogleEvents env s =
      some ((s.googleClients.map (fun ci =>
        ((splitComma first).map (fetchOrEmpty env ci)).flatten)).flatten) := by
  unfold fetchAllGoogleEvents
  rw [h]
  simp only [List.head?]
  congr 1
  have hstep : ∀ ci : Nat,
      (fun (acc2 : List Event) (calID : String) =>
        match env.fetch ci calID with
        | .error _ => acc2
        | .ok evs => acc2 ++ evs) =
      (fun acc2 calID => acc2 ++ fetchOrEmpty env ci calID) := by
    intro ci
    funext acc2 calID
    unfold fetchOrEmpty
    cases env.fetch ci calID <;> simp
  have houter : (fun (acc : List Event) (ci : Nat) =>
      (splitComma first).foldl (fun acc2 calID =>
        match env.fetch ci calID with
        | .error _ => acc2
        | .ok evs => acc2 ++ evs) acc) =
      (fun acc ci =>
        acc ++ ((splitComma first).map (fetchOrEmpty env ci)).flatten) := by
    funext acc ci
    rw [hstep ci]
    exact foldl_append_join _ _ acc
  rw [houter, foldl_append_join _ _ []]
  simp

theorem runCycle_err (env : Env) (s : Syncer) (evs : List Event)
    (file : Option SyncState) : (runCycle env s evs file).err = none := by
  unfold runCycle
  split <;> rfl

theorem runCycle_creates (env : Env) (s : Syncer) (evs : List Event)
    (file : Option SyncState) :
    (runCycle env s evs file).creates =
      (runEvents env s.dryRun s.primaryTimeZone s.state 0 evs).creates := by
  unfold runCycle
  split <;> rfl

theorem runCycle_state (env : Env) (s : Syncer) (evs : List Event)
    (file : Option SyncState) :
    (runCycle env s evs file).state =
      (runEvents env s.dryRun s.primaryTimeZone s.state 0 evs).state := by
  unfold runCycle
  split <;> rfl

theorem syncEvent_new_ev (env : Env) (dryRun : Bool) (tz : String)
    (st : SyncState) (n : Nat) (ev : Event)
    (h : (st.find ev.ID).isSome = false) :
    (syncEvent env dryRun tz st n ev).ev = normalizeEvent env tz n ev := by
  cases dryRun with
  | true => rw [syncEvent_new_dry env tz st n ev h]
  | false =>
    by_cases hc : env.createOk (normalizeEvent env tz n ev) = true
    · rw [syncEvent_new_created env tz st n ev h hc]
    · rw [syncEvent_new_failed env tz st n ev h (by simpa using hc)]

theorem syncEvent_creates_norm (env : Env) (dryRun : Bool) (tz : String)
    (st : SyncState) (n : Nat) (ev : Event) :
    ∀ e' ∈ (syncEvent env dryRun tz st n ev).creates,
      e' = normalizeEvent env tz n ev := by
  intro e' he'
  by_cases hseen : (st.find ev.ID).isSome
  · rw [syncEvent_skip env dryRun tz st n ev hseen] at he'
    simp at he'
  · cases dryRun with
    | true =>
      rw [syncEvent_new_dry env tz st n ev (by simpa using hseen)] at he'
      simp at he'
    | false =>
      by_cases hc : env.createOk (normalizeEvent env tz n ev) = true
      · rw [syncEvent_new_created env tz st n ev (by simpa using hseen) hc]
          at he'
        simpa using he'
      · rw [syncEvent_new_failed env tz st n ev (by simpa using hseen)
          (by simpa using hc)] at he'
        simpa using he'

/-! ## Claim theorems -/

/-- C1: for every event whose source identifier is already a key in the
sync state when it is processed, `syncEvent` returns success without any
mutation (state, event, UID counter all unchanged, no create invocation),
and a whole sync cycle never issues a destination create for any event
whose identifier was already a state key at cycle start. -/
theorem syncEvent_already_synced_noop (env : Env) (s : Syncer)
    (dryRun : Bool) (tz : String) (st : SyncState) (n : Nat) (ev : Event)
    (evs : List Event) (file : Option SyncState)
    (h : (st.find ev.ID).isSome) :
    syncEvent env dryRun tz st n ev = ⟨st, ev, [], n, none⟩ ∧
    (∀ e' ∈ (runCycle env s evs file).creates,
      s.state.find e'.ID = none) := by
  refine ⟨syncEvent_skip env dryRun tz st n ev h, fun e' he' => ?_⟩
  rw [runCycle_creates] at he'
  exact runEvents_creates_unseen env s.dryRun s.primaryTimeZone e' evs
    s.state 0 he'

theorem syncEvent_already_synced_noop_witness :
    (SyncState.find [("g3", "uid-c")] evC.ID).isSome = true ∧
    (syncEvent envOk false "UTC" [("g3", "uid-c")] 0 evC =
      ⟨[("g3", "uid-c")], evC, [], 0, none⟩ ∧
    (∀ e' ∈ (runCycle envOk sTest [evC] none).creates,
      sTest.state.find e'.ID = none)) :=
  ⟨by decide,
    syncEvent_already_synced_noop envOk sTest false "UTC"
      [("g3", "uid-c")] 0 evC [evC] none (by decide)⟩

/-- C2: with the dry-run flag active, a sync cycle over any list of fetched
events leaves the in-memory state untouched, never calls `saveState` (so
the persisted file is untouched), makes no destination create invocation,
and returns no error. -/
theorem runCycle_dryRun_pure (env : Env) (s : Syncer) (evs : List Event)
    (file : Option SyncState) (h : s.dryRun = true) :
    runCycle env s evs file = ⟨s.state, file, [], 0, none⟩ := by
  unfold runCycle
  rw [h]
  simp only [if_true]
  have hf := runEvents_dryRun_frame env s.primaryTimeZone evs s.state 0
  rw [hf.1, hf.2]

theorem runCycle_dryRun_pure_witness :
    sTestDry.dryRun = true ∧
    runCycle envOk sTestDry [evC, evA] none =
      ⟨sTestDry.state, none, [], 0, none⟩ :=
  ⟨by decide, runCycle_dryRun_pure envOk sTestDry [evC, evA] none
    (by decide)⟩

/-- C9: `fetchAllGoogleEvents` unconditionally indexes the first element of
the configured calendar-ID list; the panic branch (`none`) is avoided
exactly when that list has at least one element. -/
theorem fetchAllGoogleEvents_panic_iff (env : Env) (s : Syncer) :
    (fetchAllGoogleEvents env s).isSome ↔ 1 ≤ s.googleCalIDs.length := by
  cases hc : s.googleCalIDs with
  | nil => simp [fetchAllGoogleEvents, hc]
  | cons a l => simp [fetchAllGoogleEvents, hc]

/-- C10: `syncEvent` preserves the absolute instants of `StartTime` and
`EndTime` (the timezone conversion changes only the location they are
expressed in), and leaves every other field of the event except `UID`
unchanged. -/
theorem syncEvent_preserves_instants (env : Env) (dryRun : Bool)
    (tz : String) (st : SyncState) (n : Nat) (ev : Event) :
    (∀ (t : GoTime) (z : String), (t.In z).instant = t.instant) ∧
    (syncEvent env dryRun tz st n ev).ev.StartTime.instant =
      ev.StartTime.instant ∧
    (syncEvent env dryRun tz st n ev).ev.EndTime.instant =
      ev.EndTime.instant ∧
    (syncEvent env dryRun tz st n ev).ev.ID = ev.ID ∧
    (syncEvent env dryRun tz st n ev).ev.Title = ev.Title ∧
    (syncEvent env dryRun tz st n ev).ev.Description = ev.Description ∧
    (syncEvent env dryRun tz st n ev).ev.Location = ev.Location ∧
    (syncEvent env dryRun tz st n ev).ev.Organizer = ev.Organizer ∧
    (syncEvent env dryRun tz st n ev).ev.Attendees = ev.Attendees ∧
    (syncEvent env dryRun tz st n ev).ev.Source = ev.Source := by
  refine ⟨fun t z => rfl, ?_⟩
  by_cases hseen : (st.find ev.ID).isSome
  · rw [syncEvent_skip env dryRun tz st n ev hseen]
    exact ⟨rfl, rfl, rfl, rfl, rfl, rfl, rfl, rfl, rfl⟩
  · rw [syncEvent_new_ev env dryRun tz st n ev (by simpa using hseen)]
    have hfr := normalizeEvent_frame env tz n ev
    have hin := normalizeEvent_instants env tz n ev
    exact ⟨hin.1, hin.2, hfr.1, hfr.2.1, hfr.2.2.1, hfr.2.2.2.1,
      hfr.2.2.2.2.1, hfr.2.2.2.2.2.1, hfr.2.2.2.2.2.2⟩

/-- C4: for a fetched event not yet in the state store, if its UID is empty
`syncEvent` assigns it the freshly generated (always non-empty) UID before
any destination write; an event that already has a non-empty UID keeps it;
and every destination create invocation carries a non-empty UID. -/
theorem syncEvent_uid_generation (env : Env) (dryRun : Bool) (tz : String)
    (st : SyncState) (n : Nat) (ev : Event)
    (hnew : st.find ev.ID = none) :
    (ev.UID = "" →
      (syncEvent env dryRun tz st n ev).ev.UID =
        GenerateUID (env.uidBytes n) ∧
      (syncEvent env dryRun tz st n ev).ev.UID ≠ "") ∧
    (ev.UID ≠ "" →
      (syncEvent env dryRun tz st n ev).ev.UID = ev.UID) ∧
    (∀ e' ∈ (syncEvent env dryRun tz st n ev).creates, e'.UID ≠ "") := by
  have hseen : (st.find ev.ID).isSome = false := by rw [hnew]; rfl
  have hev := syncEvent_new_ev env dryRun tz st n ev hseen
  refine ⟨fun hu => ?_, fun hu => ?_, fun e' he' => ?_⟩
  · rw [hev, normalizeEvent_UID_empty env tz n ev hu]
    exact ⟨rfl, GenerateUID_ne_empty _⟩
  · rw [hev, normalizeEvent_UID_kept env tz n ev hu]
  · rw [syncEvent_creates_norm env dryRun tz st n ev e' he']
    exact normalizeEvent_UID_ne_empty env tz n ev

theorem syncEvent_uid_generation_witness :
    SyncState.find [] evA.ID = none ∧ evA.UID = "" ∧
    ((evA.UID = "" →
      (syncEvent envOk false "UTC" [] 0 evA).ev.UID =
        GenerateUID (envOk.uidBytes 0) ∧
      (syncEvent envOk false "UTC" [] 0 evA).ev.UID ≠ "") ∧
    (evA.UID ≠ "" →
      (syncEvent envOk false "UTC" [] 0 evA).ev.UID = evA.UID) ∧
    (∀ e' ∈ (syncEvent envOk false "UTC" [] 0 evA).creates,
      e'.UID ≠ "")) :=
  ⟨by decide, by decide,
    syncEvent_uid_generation envOk false "UTC" [] 0 evA (by decide)⟩

/-- C5: for a new event (identifier not in the state, dry-run off), after
`syncEvent` the state maps the event's identifier to the (possibly freshly
assigned) UID exactly when the destination create succeeded; on create
failure the state is exactly as before; and the surrounding loop always
continues with the remaining events. -/
theorem syncEvent_create_result (env : Env) (tz : String) (st : SyncState)
    (n : Nat) (ev : Event) (rest : List Event)
    (hnew : st.find ev.ID = none) :
    (env.createOk (normalizeEvent env tz n ev) = true →
      (syncEvent env false tz st n ev).state.find ev.ID =
        some (syncEvent env false tz st n ev).ev.UID ∧
      (syncEvent env false tz st n ev).err = none) ∧
    (env.createOk (normalizeEvent env tz n ev) = false →
      (syncEvent env false tz st n ev).state = st ∧
      (syncEvent env false tz st n ev).err.isSome) ∧
    (((syncEvent env false tz st n ev).state.find ev.ID).isSome ↔
      env.createOk (normalizeEvent env tz n ev) = true) ∧
    (runEvents env false tz st n (ev :: rest)).creates =
      (syncEvent env false tz st n ev).creates ++
        (runEvents env false tz (syncEvent env false tz st n ev).state
          (syncEvent env false tz st n ev).uidNext rest).creates := by
  have hseen : (st.find ev.ID).isSome = false := by rw [hnew]; rfl
  refine ⟨fun hc => ?_, fun hc => ?_, ?_, rfl⟩
  · rw [syncEvent_new_created env tz st n ev hseen hc]
    refine ⟨?_, rfl⟩
    rw [SyncState.find_set, normalizeEvent_ID,
      if_pos rfl]
  · rw [syncEvent_new_failed env tz st n ev hseen hc]
    exact ⟨rfl, rfl⟩
  · cases hc : env.createOk (normalizeEvent env tz n ev) with
    | true =>
      rw [syncEvent_new_created env tz st n ev hseen hc]
      simp only [SyncState.find_set, normalizeEvent_ID, if_pos rfl]
      simp
    | false =>
      rw [syncEvent_new_failed env tz st n ev hseen hc]
      simp only [hnew]
      simp

theorem syncEvent_create_result_witness :
    SyncState.find [] evC.ID = none ∧
    ((envCreateFail.createOk
        (normalizeEvent envCreateFail "UTC" 0 evC) = true →
      (syncEvent envCreateFail false "UTC" [] 0 evC).state.find evC.ID =
        some (syncEvent envCreateFail false "UTC" [] 0 evC).ev.UID ∧
      (syncEvent envCreateFail false "UTC" [] 0 evC).err = none) ∧
    (envCreateFail.createOk
        (normalizeEvent envCreateFail "UTC" 0 evC) = false →
      (syncEvent envCreateFail false "UTC" [] 0 evC).state = [] ∧
      (syncEvent envCreateFail false "UTC" [] 0 evC).err.isSome) ∧
    (((syncEvent envCreateFail false "UTC" [] 0 evC).state.find
        evC.ID).isSome ↔
      envCreateFail.createOk
        (normalizeEvent envCreateFail "UTC" 0 evC) = true) ∧
    (runEvents envCreateFail false "UTC" [] 0 (evC :: [evA])).creates =
      (syncEvent envCreateFail false "UTC" [] 0 evC).creates ++
        (runEvents envCreateFail false "UTC"
          (syncEvent envCreateFail false "UTC" [] 0 evC).state
          (syncEvent envCreateFail false "UTC" [] 0 evC).uidNext
          [evA]).creates) :=
  ⟨by decide,
    syncEvent_create_result envCreateFail "UTC" [] 0 evC [evA] (by decide)⟩

/-- C6: construction with a missing state file succeeds with an empty
mapping, and construction fails exactly when loading failed for a reason
other than the file not existing (unreadable file or unparsable JSON). -/
theorem NewSyncer_load_classification (parse : String → Option SyncState)
    (gClients : List Nat) (gCalIDs : List String) (dryRun : Bool)
    (tz : String) :
    NewSyncer .missing parse gClients gCalIDs dryRun tz =
      .ok ⟨gClients, gCalIDs, [], dryRun, tz⟩ ∧
    (∀ fr : FileRead,
      (∃ e, NewSyncer fr parse gClients gCalIDs dryRun tz = .error e) ↔
      (∃ e, loadState fr parse = .error e ∧ e ≠ LoadErr.notExist)) := by
  refine ⟨rfl, fun fr => ?_⟩
  cases fr with
  | missing => simp [NewSyncer, loadState]
  | unreadable msg => simp [NewSyncer, loadState]
  | content d =>
    cases hp : parse d with
    | none => simp [NewSyncer, loadState, hp]
    | some st => simp [NewSyncer, loadState, hp]

/-- C8: a sync cycle never fails: whatever the per-source fetch outcomes,
per-event destination create outcomes and state save outcome, as long as
the calendar-ID list is non-empty (so the unguarded index does not panic),
`Sync` returns a result whose error is `nil`. -/
theorem Sync_never_fails (env : Env) (s : Syncer)
    (file : Option SyncState) (h : 1 ≤ s.googleCalIDs.length) :
    ∃ r, Sync env s file = some r ∧ r.err = none := by
  cases hc : s.googleCalIDs with
  | nil => rw [hc] at h; simp at h
  | cons first restIDs =>
    refine ⟨runCycle env s ((s.googleClients.map (fun ci =>
      ((splitComma first).map (fetchOrEmpty env ci)).flatten)).flatten)
      file, ?_, runCycle_err env s _ file⟩
    unfold Sync
    rw [fetchAll_eq env s first restIDs hc]

theorem Sync_never_fails_witness :
    1 ≤ sTest.googleCalIDs.length ∧
    ∃ r, Sync envAllFail sTest none = some r ∧ r.err = none :=
  ⟨by decide, Sync_never_fails envAllFail sTest none (by decide)⟩

/-- C3 counterexample: with one event whose destination create fails, both
cycles fetch the same single event and the first cycle's state is
successfully persisted (the file holds exactly the final state), yet the
second cycle still makes one destination create invocation — the claim's
premises hold while its conclusion of zero second-run creates fails. -/
theorem runCycle_twice_retry_cex :
    envCreateFail.saveOk = true ∧
    (runCycle envCreateFail sTest [evC] none).file =
      some (runCycle envCreateFail sTest [evC] none).state ∧
    (runCycle envCreateFail
      { sTest with state := (runCycle envCreateFail sTest [evC] none).state }
      [evC]
      (runCycle envCreateFail sTest [evC] none).file).creates.length = 1 := by
  decide

/-- C3 (amended): running the cycle twice in succession — the second run
fetching no source events beyond those of the first, the first run's state
successfully persisted, and additionally every destination create
invocation of the first run having succeeded — produces zero destination
create invocations on the second run. -/
theorem runCycle_idempotent_after_success (env : Env) (s : Syncer)
    (file : Option SyncState) (evs1 evs2 : List Event)
    (hdry : s.dryRun = false)
    (hsave : env.saveOk = true)
    (hok : ∀ e' ∈ (runCycle env s evs1 file).creates,
      env.createOk e' = true)
    (hsub : ∀ e ∈ evs2, ∃ e1 ∈ evs1, e1.ID = e.ID) :
    (runCycle env { s with state := (runCycle env s evs1 file).state } evs2
      (runCycle env s evs1 file).file).creates = [] := by
  rw [runCycle_creates] at hok ⊢
  rw [runCycle_state]
  dsimp only
  rw [hdry] at hok ⊢
  have hcov := runEvents_covers env s.primaryTimeZone evs1 s.state 0 hok
  have hall : ∀ e ∈ evs2,
      (((runEvents env false s.primaryTimeZone s.state 0 evs1).state).find
        e.ID).isSome := by
    intro e he
    obtain ⟨e1, he1, hid⟩ := hsub e he
    have hc := hcov e1 he1
    rwa [hid] at hc
  rw [runEvents_skip_all env false s.primaryTimeZone evs2 _ 0 hall]

theorem runCycle_idempotent_after_success_witness :
    sTest.dryRun = false ∧ envOk.saveOk = true ∧
    (∀ e' ∈ (runCycle envOk sTest [evC] none).creates,
      envOk.createOk e' = true) ∧
    (runCycle envOk { sTest with state :=
        (runCycle envOk sTest [evC] none).state } [evC]
      (runCycle envOk sTest [evC] none).file).creates = [] :=
  ⟨by decide, by decide, by decide,
    runCycle_idempotent_after_success envOk sTest none [evC] [evC]
      (by decide) (by decide) (by decide) (by decide)⟩

/-- C7: if some configured (client, calendar) pair fails to fetch, the
cycle does not abort: the events of every pair that fetched successfully
are all in the collected list, the cycle runs over that list, and any such
event that is new (identifier not in state, not shadowed by another
collected event with the same identifier) gets a destination create
invocation when dry-run is off. -/
theorem fetch_partial_failure_isolation (env : Env) (s : Syncer)
    (file : Option SyncState) (first : String) (restIDs : List String)
    (ci ci0 : Nat) (cal cal0 : String) (evs : List Event) (msg : String)
    (hcal : s.googleCalIDs = first :: restIDs)
    (hci : ci ∈ s.googleClients)
    (hcalmem : cal ∈ splitComma first)
    (hfetch : env.fetch ci cal = .ok evs)
    (hci0 : ci0 ∈ s.googleClients)
    (hcal0 : cal0 ∈ splitComma first)
    (hfail : env.fetch ci0 cal0 = .error msg) :
    ∃ L, fetchAllGoogleEvents env s = some L ∧
      Sync env s file = some (runCycle env s L file) ∧
      (∀ e ∈ evs, e ∈ L) ∧
      (∀ e ∈ evs, s.dryRun = false → s.state.find e.ID = none →
        (∀ e' ∈ L, e' ≠ e → e'.ID ≠ e.ID) →
        ∃ e'' ∈ (runCycle env s L file).creates, e''.ID = e.ID) := by
  have hmem : ∀ e ∈ evs, e ∈ (s.googleClients.map (fun c =>
      ((splitComma first).map (fetchOrEmpty env c)).flatten)).flatten := by
    intro e he
    apply List.mem_flatten.mpr
    refine ⟨((splitComma first).map (fetchOrEmpty env ci)).flatten,
      List.mem_map_of_mem _ hci, ?_⟩
    apply List.mem_flatten.mpr
    refine ⟨fetchOrEmpty env ci cal, List.mem_map_of_mem _ hcalmem, ?_⟩
    unfold fetchOrEmpty
    rw [hfetch]
    exact he
  refine ⟨(s.googleClients.map (fun c =>
      ((splitComma first).map (fetchOrEmpty env c)).flatten)).flatten,
    fetchAll_eq env s first restIDs hcal, ?_, hmem, ?_⟩
  · unfold Sync
    rw [fetchAll_eq env s first restIDs hcal]
  · intro e he hdry hnone huniq
    rw [runCycle_creates, hdry]
    exact runEvents_creates_new env s.primaryTimeZone e _ s.state 0
      (hmem e he) hnone huniq

theorem fetch_partial_failure_isolation_witness :
    sTwo.googleCalIDs = ["primary,broken"] ∧
    "primary" ∈ splitComma "primary,broken" ∧
    envPartial.fetch 0 "primary" = .ok [evC] ∧
    "broken" ∈ splitComma "primary,broken" ∧
    envPartial.fetch 0 "broken" = .error "network" ∧
    (∃ L, fetchAllGoogleEvents envPartial sTwo = some L ∧
      Sync envPartial sTwo none = some (runCycle envPartial sTwo L none) ∧
      (∀ e ∈ [evC], e ∈ L) ∧
      (∀ e ∈ [evC], sTwo.dryRun = false → sTwo.state.find e.ID = none →
        (∀ e' ∈ L, e' ≠ e → e'.ID ≠ e.ID) →
        ∃ e'' ∈ (runCycle envPartial sTwo L none).creates,
          e''.ID = e.ID)) :=
  ⟨rfl, by decide, rfl, by decide, rfl,
    fetch_partial_failure_isolation envPartial sTwo none "primary,broken"
      [] 0 0 "primary" "broken" [evC] "network" rfl (by decide) (by decide)
      rfl (by decide) (by decide) rfl⟩

end Syncal
